import Mathlib

/-!
Shallow embedding of the ha-timnet Home Assistant integration
(custom_components/timnet): the minimal Modbus-TCP client
(modbus_client.py), the polling coordinator and the register decoder
(sensor.py).  Bytes are modelled as natural numbers, the network as the
list of bytes a single recv call would return, and Python exceptions as
an explicit error type.
-/

/-- Errors raised by MinimalModbusTcpClient (Python exceptions).
badCount is the ValueError from the count range check; incomplete is
IOError "Incomplete response" (fewer than 7 bytes received); noResponse is
IOError "No response" (empty payload after the 7-byte header);
exceptionResponse is the IOError raised for a Modbus exception frame,
carrying the raw payload bytes (Python formats resp.hex()); indexError is
the uncaught Python IndexError from resp[1] when the payload has exactly
one byte. -/
inductive ModbusError where
  | badCount : ModbusError
  | incomplete : ModbusError
  | noResponse : ModbusError
  | exceptionResponse : List Nat → ModbusError
  | indexError : ModbusError
deriving DecidableEq, Repr

/-- Big-endian decoding of one 16-bit word, struct.unpack of two bytes. -/
def u16be (hi lo : Nat) : Nat := hi * 256 + lo

/-- The register parsing loop of read_holding_registers: walk the byte
list two at a time, decoding big-endian words; a trailing unpaired byte
is dropped (the loop body guards i+1 < len(regs_bytes)). -/
def parseWords : List Nat → List Nat
  | hi :: lo :: rest => u16be hi lo :: parseWords rest
  | _ => []

/-- Response handling of read_holding_registers after the request was
sent, as a function of the bytes returned by the single recv call.
Mirrors: the length-7 header check inside _send_request, the empty-payload
check, the function-code high-bit check, byte_count = resp[1] (an
IndexError on a one-byte payload), the slice resp[2:2+byte_count], the
big-endian pair loop, and the final truncation regs[:count]. -/
def parse_response (count : Nat) (data : List Nat) : Except ModbusError (List Nat) :=
  if data.length < 7 then .error .incomplete
  else
    match data.drop 7 with
    | [] => .error .noResponse
    | fc :: rest =>
      if fc &&& 0x80 ≠ 0 then .error (.exceptionResponse (fc :: rest))
      else
        match rest with
        | [] => .error .indexError
        | byte_count :: regs_tail =>
          .ok ((parseWords (regs_tail.take byte_count)).take count)

/-- MinimalModbusTcpClient.read_holding_registers.  State and effects are
explicit: tid is the client transaction counter before the call, data the
bytes recv would return.  Returns the Python result (value or exception),
the transaction counter after the call, and whether any network I/O
happened (a connection opened / bytes sent).  The ValueError for a count
outside 1..125 fires before _send_request, hence before _next_tid and
before any socket is opened; otherwise _next_tid increments the counter
modulo 65536 and the request goes out. -/
def read_holding_registers (tid _address count : Nat) (data : List Nat) :
    Except ModbusError (List Nat) × Nat × Bool :=
  if count < 1 ∨ count > 125 then (.error .badCount, tid, false)
  else (parse_response count data, (tid + 1) % 65536, true)

/-- TimNetCoordinator._fetch_data: a fresh client (transaction counter 0)
reads holding registers 0x0000, count 22, and the resulting list is
enumerated into an address-indexed map (Python dict, modelled as an
association list in insertion order). -/
def fetch_data (net : List Nat) : Except ModbusError (List (Nat × Nat)) :=
  match (read_holding_registers 0 0x0000 22 net).1 with
  | .error e => .error e
  | .ok values => .ok values.enum

/-- Mutable coordinator state: _last_valid_data and connection_ok. -/
structure CoordState where
  last_valid_data : List (Nat × Nat)
  connection_ok : Bool
deriving DecidableEq, Repr

/-- TimNetCoordinator._async_update_data, given the outcome of the
executor job (_fetch_data either returned a dict or raised).  A non-empty
dict is cached and connection_ok set true; an empty dict or any exception
sets connection_ok false and returns the previous _last_valid_data.  The
function is total: no error value escapes to the caller. -/
def async_update_data (s : CoordState) (fetched : Except ModbusError (List (Nat × Nat))) :
    CoordState × List (Nat × Nat) :=
  match fetched with
  | .ok data =>
    if data.isEmpty then
      ({ s with connection_ok := false }, s.last_valid_data)
    else
      ({ last_valid_data := data, connection_ok := true }, data)
  | .error _ => ({ s with connection_ok := false }, s.last_valid_data)

/-- One poll tick: run _fetch_data against the given network bytes and
fold the outcome into the coordinator state via _async_update_data. -/
def tick (s : CoordState) (net : List Nat) : CoordState × List (Nat × Nat) :=
  async_update_data s (fetch_data net)

/-- TimNetConnectionSensor.is_on: connection_ok and the coordinator data
(the value returned by the last update) is non-empty. -/
def connection_is_on (connection_ok : Bool) (data : List (Nat × Nat)) : Bool :=
  connection_ok && !data.isEmpty

/-- TimNetConnectionSensor.available: always true. -/
def connection_available : Bool := true

/-- Classifier used when refuting C8: the failure kinds the claim allows
(transport errors and the protocol error). -/
def transport_or_protocol_error : ModbusError → Bool
  | .incomplete => true
  | .noResponse => true
  | .exceptionResponse _ => true
  | _ => false

-- Helper lemmas about the word parser.

theorem parseWords_length : ∀ l : List Nat, (parseWords l).length = l.length / 2
  | [] => rfl
  | [_] => by simp [parseWords]
  | hi :: lo :: rest => by
    simp only [parseWords, List.length_cons]
    rw [parseWords_length rest]
    omega

theorem parseWords_take : ∀ (k : Nat) (l : List Nat),
    (parseWords l).take k = parseWords (l.take (2 * k))
  | 0, l => by simp [parseWords]
  | _ + 1, [] => by simp [parseWords]
  | _ + 1, [x] => by simp [parseWords]
  | k + 1, hi :: lo :: rest => by
    have h2 : 2 * (k + 1) = (2 * k) + 1 + 1 := by ring
    simp only [parseWords, h2, List.take_succ_cons]
    rw [parseWords_take k rest]
    rfl

theorem parseWords_append_singleton : ∀ (l : List Nat) (b : Nat),
    l.length % 2 = 0 → parseWords (l ++ [b]) = parseWords l
  | [], b, _ => rfl
  | [_], _, h => by simp at h
  | hi :: lo :: rest, b, h => by
    have hr : rest.length % 2 = 0 := by
      simp only [List.length_cons] at h
      omega
    show u16be hi lo :: parseWords (rest ++ [b]) = u16be hi lo :: parseWords rest
    rw [parseWords_append_singleton rest b hr]

theorem parse_response_ok_length (count : Nat) (data ws : List Nat)
    (h : parse_response count data = .ok ws) : ws.length ≤ count := by
  unfold parse_response at h
  split at h
  · exact absurd h (by simp)
  · split at h
    · exact absurd h (by simp)
    · split at h
      · exact absurd h (by simp)
      · split at h
        · exact absurd h (by simp)
        · injection h with h2
          rw [← h2]
          exact List.length_take_le count _

/-- Shape of a successful parse of a response that carries at least
count registers: the 7-byte header is dropped, the function code has its
high bit clear, and min byte_count (available bytes) yields at least
count big-endian words; the result is exactly the first count words. -/
theorem parse_response_full (count fc byte_count : Nat) (hdr rest : List Nat)
    (hhdr : hdr.length = 7) (hfc : fc &&& 0x80 = 0)
    (hcnt : count ≤ min byte_count rest.length / 2) :
    parse_response count (hdr ++ fc :: byte_count :: rest) =
      .ok (parseWords (rest.take (2 * count))) ∧
    (parseWords (rest.take (2 * count))).length = count := by
  have hbc : 2 * count ≤ byte_count := by
    have := Nat.min_le_left byte_count rest.length
    omega
  have hrest : 2 * count ≤ rest.length := by
    have := Nat.min_le_right byte_count rest.length
    omega
  have hdrop : (hdr ++ fc :: byte_count :: rest).drop 7 = fc :: byte_count :: rest := by
    rw [← hhdr, List.drop_left]
  have hlen : ¬ (hdr ++ fc :: byte_count :: rest).length < 7 := by
    simp [List.length_append, hhdr]
  constructor
  · simp only [parse_response, hdrop, if_neg hlen]
    rw [if_neg (by simp [hfc])]
    rw [parseWords_take, List.take_take]
    have : min (2 * count) byte_count = 2 * count := by omega
    rw [this]
  · rw [parseWords_length, List.length_take]
    omega

/-- C3: for every count in 1..125 and every well-formed response holding
at least count registers, read_holding_registers returns exactly count
big-endian-decoded words (the first count word pairs of the register
bytes), truncating everything beyond count; moreover a response whose
declared byte count is odd and which carries a trailing unpaired byte b
yields the same count words without an error, so the odd byte is silently
dropped. -/
theorem C3_read_holding_registers_count_words
    (tid address count fc byte_count b : Nat) (hdr rest : List Nat)
    (h1 : 1 ≤ count) (h2 : count ≤ 125)
    (hhdr : hdr.length = 7) (hfc : fc &&& 0x80 = 0)
    (hcnt : count ≤ min byte_count rest.length / 2) :
    ((read_holding_registers tid address count (hdr ++ fc :: byte_count :: rest)).1 =
        .ok (parseWords (rest.take (2 * count))) ∧
      (parseWords (rest.take (2 * count))).length = count) ∧
    (read_holding_registers tid address count
        (hdr ++ fc :: (2 * count + 1) :: (rest.take (2 * count) ++ [b]))).1 =
      .ok (parseWords (rest.take (2 * count))) := by
  have hcountok : ¬ (count < 1 ∨ count > 125) := by omega
  have hmain := parse_response_full count fc byte_count hdr rest hhdr hfc hcnt
  have hrest : 2 * count ≤ rest.length := by
    have := Nat.min_le_right byte_count rest.length
    omega
  have htklen : (rest.take (2 * count)).length = 2 * count := by
    rw [List.length_take]; omega
  refine ⟨⟨?_, hmain.2⟩, ?_⟩
  · simp only [read_holding_registers, if_neg hcountok]
    exact hmain.1
  · have hodd := parse_response_full count fc (2 * count + 1) hdr
      (rest.take (2 * count) ++ [b]) hhdr hfc
      (by simp only [List.length_append, htklen, List.length_singleton]; omega)
    simp only [read_holding_registers, if_neg hcountok]
    rw [hodd.1]
    have heq : (rest.take (2 * count) ++ [b]).take (2 * count) = rest.take (2 * count) := by
      rw [List.take_append_of_le_length (by omega), List.take_take]
      congr 1
      omega
    rw [heq]

/-- C3 witness: count 2, a response with three words where the third is
truncated away, and the odd-trailing-byte variant. -/
theorem C3_witness :
    (1 ≤ 2 ∧ 2 ≤ 125 ∧ ([0, 0, 0, 0, 0, 0, 1] : List Nat).length = 7 ∧ 3 &&& 0x80 = 0 ∧
      2 ≤ min 6 ([0, 215, 1, 44, 9, 9] : List Nat).length / 2) ∧
    ((read_holding_registers 0 0 2 ([0, 0, 0, 0, 0, 0, 1] ++ 3 :: 6 :: [0, 215, 1, 44, 9, 9])).1 =
        .ok (parseWords (([0, 215, 1, 44, 9, 9] : List Nat).take (2 * 2))) ∧
      (parseWords (([0, 215, 1, 44, 9, 9] : List Nat).take (2 * 2))).length = 2) ∧
    (read_holding_registers 0 0 2
        ([0, 0, 0, 0, 0, 0, 1] ++ 3 :: (2 * 2 + 1) :: (([0, 215, 1, 44, 9, 9] : List Nat).take (2 * 2) ++ [7]))).1 =
      .ok (parseWords (([0, 215, 1, 44, 9, 9] : List Nat).take (2 * 2))) :=
  ⟨⟨by decide, by decide, by decide, by decide, by decide⟩,
    C3_read_holding_registers_count_words 0 0 2 3 6 7 [0, 0, 0, 0, 0, 0, 1]
      [0, 215, 1, 44, 9, 9] (by decide) (by decide) (by decide) (by decide) (by decide)⟩

/-- C9: for every count outside 1..125 (0 or above 125 over the
unsigned domain) read_holding_registers raises ValueError with no network
I/O performed and the transaction counter unchanged. -/
theorem C9_bad_count_no_io (tid address count : Nat) (data : List Nat)
    (h : count = 0 ∨ 125 < count) :
    read_holding_registers tid address count data = (.error .badCount, tid, false) := by
  have hlt : count < 1 ∨ count > 125 := by omega
  unfold read_holding_registers
  rw [if_pos hlt]

/-- C9 witness at count 126. -/
theorem C9_witness :
    (126 = 0 ∨ 125 < 126) ∧
    read_holding_registers 41 0 126 [1, 2, 3] = (.error .badCount, 41, false) :=
  ⟨by omega, C9_bad_count_no_io 41 0 126 [1, 2, 3] (by omega)⟩

/-- C1: whenever _fetch_data raises any error, or succeeds with an empty
result, the tick sets connection_ok false, leaves _last_valid_data
unchanged, and returns that previous value; being a total function, the
tick propagates no error to its caller. -/
theorem C1_failure_keeps_cache (s : CoordState) (net : List Nat)
    (h : (∃ e, fetch_data net = .error e) ∨ fetch_data net = .ok []) :
    tick s net = (⟨s.last_valid_data, false⟩, s.last_valid_data) := by
  rcases h with ⟨e, he⟩ | he <;>
    simp [tick, async_update_data, he]

/-- C1 witness: a truncated (empty) network response against a non-empty
cache leaves the cache untouched and clears the health flag. -/
theorem C1_witness :
    ((∃ e, fetch_data [] = .error e) ∨ fetch_data [] = .ok []) ∧
    tick ⟨[(0, 215)], true⟩ [] = (⟨[(0, 215)], false⟩, [(0, 215)]) :=
  ⟨Or.inl ⟨.incomplete, rfl⟩,
    C1_failure_keeps_cache ⟨[(0, 215)], true⟩ [] (Or.inl ⟨.incomplete, rfl⟩)⟩

/-- C4: the connectivity indicator is on iff connection_ok holds and the
reading is non-empty; after any tick whose fetch raised, the indicator
computed from the new state and returned reading is off, stale cache or
not; and the connectivity entity is always available. -/
theorem C4_connection_indicator :
    (∀ (ok : Bool) (data : List (Nat × Nat)),
      connection_is_on ok data = true ↔ (ok = true ∧ data ≠ [])) ∧
    (∀ (s : CoordState) (net : List Nat) (e : ModbusError),
      fetch_data net = .error e →
      connection_is_on (tick s net).1.connection_ok (tick s net).2 = false) ∧
    connection_available = true := by
  refine ⟨?_, ?_, rfl⟩
  · intro ok data
    cases ok <;> simp [connection_is_on, List.isEmpty_iff]
  · intro s net e he
    simp [tick, async_update_data, he, connection_is_on]

/-- C4 witness: the iff at a healthy non-empty state, and the indicator
off after a failed poll over a stale non-empty cache. -/
theorem C4_witness :
    connection_is_on true [(0, 215)] = true ∧
    connection_is_on (tick ⟨[(0, 215)], true⟩ []).1.connection_ok
      (tick ⟨[(0, 215)], true⟩ []).2 = false :=
  ⟨(C4_connection_indicator.1 true [(0, 215)]).mpr ⟨rfl, by decide⟩,
    C4_connection_indicator.2.1 ⟨[(0, 215)], true⟩ [] .incomplete rfl⟩

/-- C8 counterexample: an 8-byte response (intact header, payload the
single byte 3) passes every check the claim lists — at least 7 bytes, a
non-empty payload, high bit of the function code clear — yet the code
raises an uncaught IndexError at resp[1] instead of returning decoded
words; the failure is neither a transport nor a protocol error. -/
theorem C8_counterexample :
    (read_holding_registers 0 0 1 [0, 0, 0, 0, 0, 0, 1, 3]).1 = .error .indexError ∧
    transport_or_protocol_error .indexError = false := by
  exact ⟨rfl, rfl⟩

/-- C8 amended: with a valid count, fewer than 7 received bytes fail with
the transport error for a truncated header, an empty payload fails with
the transport error for a missing response, a payload whose first byte
has the 0x80 bit fails with the protocol error carrying the raw payload
bytes, a one-byte payload without that bit raises an uncaught IndexError,
and every payload of at least two bytes whose function code is clear
returns decoded words without raising. -/
theorem C8_amended_response_errors (tid address count : Nat) (data : List Nat)
    (h1 : 1 ≤ count) (h2 : count ≤ 125) :
    (data.length < 7 →
      (read_holding_registers tid address count data).1 = .error .incomplete) ∧
    (¬ data.length < 7 → data.drop 7 = [] →
      (read_holding_registers tid address count data).1 = .error .noResponse) ∧
    (∀ fc rest, data.drop 7 = fc :: rest → fc &&& 0x80 ≠ 0 →
      (read_holding_registers tid address count data).1 =
        .error (.exceptionResponse (fc :: rest))) ∧
    (∀ fc, data.drop 7 = [fc] → fc &&& 0x80 = 0 →
      (read_holding_registers tid address count data).1 = .error .indexError) ∧
    (∀ fc byte_count regs_tail, data.drop 7 = fc :: byte_count :: regs_tail →
      fc &&& 0x80 = 0 →
      (read_holding_registers tid address count data).1 =
        .ok ((parseWords (regs_tail.take byte_count)).take count)) := by
  have hcountok : ¬ (count < 1 ∨ count > 125) := by omega
  simp only [read_holding_registers, if_neg hcountok]
  refine ⟨?_, ?_, ?_, ?_, ?_⟩
  · intro hshort
    simp [parse_response, hshort]
  · intro hlong hempty
    simp [parse_response, hlong, hempty]
  · intro fc rest hdrop hfc
    have hlong : ¬ data.length < 7 := by
      have := congrArg List.length hdrop
      simp [List.length_drop] at this
      omega
    simp [parse_response, hdrop, hfc, if_neg hlong]
  · intro fc hdrop hfc
    have hlong : ¬ data.length < 7 := by
      have := congrArg List.length hdrop
      simp [List.length_drop] at this
      omega
    simp [parse_response, hdrop, hfc, if_neg hlong]
  · intro fc byte_count regs_tail hdrop hfc
    have hlong : ¬ data.length < 7 := by
      have := congrArg List.length hdrop
      simp [List.length_drop] at this
      omega
    simp [parse_response, hdrop, hfc, if_neg hlong]

/-- C8 witness: count 1 with a header-only response, an exception frame,
and a two-word payload. -/
theorem C8_witness :
    (1 ≤ 1 ∧ 1 ≤ 125) ∧
    (read_holding_registers 0 0 1 [9, 9]).1 = .error .incomplete ∧
    (read_holding_registers 0 0 1 [0, 0, 0, 0, 0, 0, 1]).1 = .error .noResponse ∧
    (read_holding_registers 0 0 1 [0, 0, 0, 0, 0, 0, 1, 0x83, 2]).1 =
      .error (.exceptionResponse [0x83, 2]) ∧
    (read_holding_registers 0 0 1 [0, 0, 0, 0, 0, 0, 1, 3]).1 = .error .indexError ∧
    (read_holding_registers 0 0 1 [0, 0, 0, 0, 0, 0, 1, 3, 2, 0, 215]).1 =
      .ok ((parseWords (([0, 215] : List Nat).take 2)).take 1) := by
  refine ⟨⟨le_refl 1, by omega⟩, ?_, ?_, ?_, ?_, ?_⟩
  · exact (C8_amended_response_errors 0 0 1 [9, 9] (le_refl 1) (by omega)).1 (by decide)
  · exact (C8_amended_response_errors 0 0 1 [0, 0, 0, 0, 0, 0, 1] (le_refl 1)
      (by omega)).2.1 (by decide) rfl
  · exact (C8_amended_response_errors 0 0 1 [0, 0, 0, 0, 0, 0, 1, 0x83, 2] (le_refl 1)
      (by omega)).2.2.1 0x83 [2] rfl (by decide)
  · exact (C8_amended_response_errors 0 0 1 [0, 0, 0, 0, 0, 0, 1, 3] (le_refl 1)
      (by omega)).2.2.2.1 3 rfl (by decide)
  · exact (C8_amended_response_errors 0 0 1 [0, 0, 0, 0, 0, 0, 1, 3, 2, 0, 215] (le_refl 1)
      (by omega)).2.2.2.2 3 2 [0, 215] rfl (by decide)

/-- C5 counterexample: a response declaring 2 register bytes and carrying
one word makes the poll succeed (connection_ok becomes true and the cache
is replaced), yet the cached keys are [0], not the 22-element range the
claim requires. -/
theorem C5_counterexample :
    (tick ⟨[], true⟩ [0, 0, 0, 0, 0, 0, 1, 3, 2, 0, 215]).1.connection_ok = true ∧
    (tick ⟨[], true⟩ [0, 0, 0, 0, 0, 0, 1, 3, 2, 0, 215]).1.last_valid_data = [(0, 215)] ∧
    (tick ⟨[], true⟩ [0, 0, 0, 0, 0, 0, 1, 3, 2, 0, 215]).1.last_valid_data.map Prod.fst ≠
      List.range 22 := by
  exact ⟨rfl, rfl, by decide⟩

/-- C5 amended: after every successful poll the cached keys are the
contiguous 0-based range of length the number of words decoded from the
response, which is at most 22; when the response actually carries at
least 22 registers (the full requested block) that length is exactly
22. -/
theorem C5_amended_cached_keys (s : CoordState) (net : List Nat) (values : List Nat)
    (hok : (read_holding_registers 0 0x0000 22 net).1 = .ok values)
    (hne : values ≠ []) :
    ((tick s net).1.last_valid_data.map Prod.fst = List.range values.length ∧
      values.length ≤ 22) ∧
    (∀ fc byte_count : Nat, ∀ hdr rest : List Nat,
      net = hdr ++ fc :: byte_count :: rest → hdr.length = 7 → fc &&& 0x80 = 0 →
      22 ≤ min byte_count rest.length / 2 → values.length = 22) := by
  have hfetch : fetch_data net = .ok values.enum := by
    simp only [fetch_data, hok]
  have htick : (tick s net).1.last_valid_data = values.enum := by
    have hnee : ¬ values.enum.isEmpty := by
      cases values with
      | nil => exact absurd rfl hne
      | cons a l => simp [List.enum]
    simp [tick, async_update_data, hfetch, hnee]
  constructor
  · constructor
    · rw [htick, List.enum_map_fst]
    · have hrh : ¬ ((22 : Nat) < 1 ∨ (22 : Nat) > 125) := by omega
      simp only [read_holding_registers, if_neg hrh] at hok
      exact parse_response_ok_length 22 net values hok
  · intro fc byte_count hdr rest hnet hhdr hfc hcnt
    have hfull := parse_response_full 22 fc byte_count hdr rest hhdr hfc hcnt
    have hrh : ¬ ((22 : Nat) < 1 ∨ (22 : Nat) > 125) := by omega
    simp only [read_holding_registers, if_neg hrh, hnet, hfull.1] at hok
    have : parseWords (rest.take (2 * 22)) = values := by simpa using hok
    rw [← this]
    exact hfull.2

/-- C5 amended witness: a full 22-register response (44 register bytes,
all words 7) is cached with keys 0..21. -/
theorem C5_amended_witness :
    ((tick ⟨[], true⟩
        ([0, 0, 0, 0, 0, 0, 1] ++ 3 :: 44 :: List.replicate 44 7)).1.last_valid_data.map
        Prod.fst = List.range (parseWords ((List.replicate 44 7).take (2 * 22))).length ∧
      (parseWords ((List.replicate 44 7).take (2 * 22))).length ≤ 22) ∧
    (parseWords ((List.replicate 44 7).take (2 * 22))).length = 22 := by
  have hok : (read_holding_registers 0 0x0000 22
      ([0, 0, 0, 0, 0, 0, 1] ++ 3 :: 44 :: List.replicate 44 7)).1 =
      .ok (parseWords ((List.replicate 44 7).take (2 * 22))) := rfl
  have hne : parseWords ((List.replicate 44 7).take (2 * 22)) ≠ [] := by decide
  have h := C5_amended_cached_keys ⟨[], true⟩
    ([0, 0, 0, 0, 0, 0, 1] ++ 3 :: 44 :: List.replicate 44 7)
    (parseWords ((List.replicate 44 7).take (2 * 22))) hok hne
  exact ⟨h.1, h.2 3 44 [0, 0, 0, 0, 0, 0, 1] (List.replicate 44 7) rfl (by decide)
    (by decide) (by decide)⟩

/-- A decoded sensor state, distinguishing the Python result types of
TimNetSensor.native_value: a fractional number produced by round(x, 1)
(modelled exactly as a rational), a plain integer (raw values and the
clamped flap position), or a text label. -/
inductive Value where
  | num : ℚ → Value
  | int : Nat → Value
  | str : String → Value
deriving DecidableEq, Repr

/-- Python round(x, 1): round to the nearest multiple of one tenth.  Every
use reached by the claims divides an integer by 10, where the result is an
exact multiple of one tenth and every tie-breaking convention agrees. -/
def round1 (q : ℚ) : ℚ := (round (q * 10) : ℤ) / 10

/-- A register descriptor: the fields of a REGISTER_DEFINITIONS entry the
decode logic reads (address, key, optional divider) plus the display
name; presentation metadata (unit, device class, icons) is omitted. -/
structure RegDef where
  address : Nat
  name : String
  key : String
  divider : Option Nat
deriving DecidableEq, Repr

/-- REGISTER_DEFINITIONS from sensor.py: the fixed ordered catalog of the
22-register block actually decoded (addresses 0x0000-0x0015; 0x0004 is
the door switch handled by the binary sensor, addresses 0x000A-0x000F are
unmapped). -/
def REGISTER_DEFINITIONS : List RegDef := [
  ⟨0x0000, "Temperature T1", "TT", some 10⟩,
  ⟨0x0001, "Temperature T2", "TT2", some 10⟩,
  ⟨0x0002, "Combustion Time", "CAS", some 60⟩,
  ⟨0x0003, "Flap Position", "SER1", none⟩,
  ⟨0x0005, "Combustion Mode", "REZIM", none⟩,
  ⟨0x0006, "Fuel Type", "PALIVO", none⟩,
  ⟨0x0007, "Refuel Offset", "PRILOZ", none⟩,
  ⟨0x0008, "SDS Sensitivity", "SDS", none⟩,
  ⟨0x0009, "Status Color", "BARVA", none⟩,
  ⟨0x0010, "Sound Signalization", "BEEP", none⟩,
  ⟨0x0011, "Relay 1", "RELE1", none⟩,
  ⟨0x0012, "Relay 2", "RELE2", none⟩,
  ⟨0x0013, "Sensor Fault", "PORUCHA", none⟩,
  ⟨0x0014, "Unit Status", "STAT", none⟩,
  ⟨0x0015, "Total Refuel Count", "P_LIFE", none⟩]

/-- STATUS_MAP of TimNetSensor (Python dict as an association list). -/
def STATUS_MAP : List (Nat × String) := [
  (0, "Start napájení"), (1, "Klidový stav 100%"), (2, "Klidový stav 0%"),
  (3, "Zatápění"), (4, "Start regulace"), (5, "Hoření (vzrůstající teplota)"),
  (6, "Hoření (klesající teplota)"), (7, "Přiložit"), (8, "Žárový proces"),
  (10, "Nezatopeno"), (13, "Přetopeno"), (14, "Dlouho otevřená dvířka"),
  (15, "Testovací režim"), (20, "Porucha teploty")]

def MODE_MAP : List (Nat × String) := [(1, "Eco"), (2, "Standard"), (3, "Turbo")]

def FUEL_MAP : List (Nat × String) := [(1, "Dřevo"), (2, "Brikety")]

def REFUEL_MAP : List (Nat × String) :=
  [(1, "-2"), (2, "-1"), (3, "Standard"), (4, "+1"), (5, "+2")]

def COLOR_MAP : List (Nat × String) :=
  [(0, "Bez barvy"), (1, "Žlutá"), (2, "Zelená"), (3, "Červená")]

def BEEP_MAP : List (Nat × String) := [(0, "Vypnuto"), (15, "Zapnuto")]

def RELAY_MAP : List (Nat × String) := [(0, "Rozepnuto"), (1, "Sepnuto")]

/-- The SDS level_map local of native_value. -/
def SDS_LEVEL_MAP : List (Nat × String) :=
  [(1, "-2"), (2, "-1"), (3, "Standard"), (4, "+1"), (5, "+2")]

/-- The SDS branch below the 255 check: split raw into active = raw mod
10 and level = raw div 10, look the level up (fallback the unknown
label), and append the active/inactive marker. -/
def sdsLabel (raw : Nat) : String :=
  ((SDS_LEVEL_MAP.lookup (raw / 10)).getD "Neznámé") ++ " " ++
    (if raw % 10 = 1 then "(Aktivní)" else "(Neaktivní)")

/-- The faults list built by the PORUCHA branch: append "T1" when bit 0
is set, "T2" when bit 1 is set, "Dvířka" when bit 3 is set — in that
order. -/
def faultList (raw : Nat) : List String :=
  (if raw &&& 1 ≠ 0 then ["T1"] else []) ++
  (if raw &&& 2 ≠ 0 then ["T2"] else []) ++
  (if raw &&& 8 ≠ 0 then ["Dvířka"] else [])

/-- dict.get(raw, raw): look the raw value up in a fixed table, falling
back to the raw integer itself. -/
def lookupOrRaw (m : List (Nat × String)) (raw : Nat) : Value :=
  match m.lookup raw with
  | some s => .str s
  | none => .int raw

/-- TimNetSensor.native_value for a present raw value, following the
Python key dispatch clause by clause.  The Python comparison
raw_value == -20000 can never hold for a value unpacked as an unsigned
16-bit word and is dropped; the 65536 - 20000 comparison remains. -/
def native_value (reg : RegDef) (raw : Nat) : Value :=
  if reg.key = "TT" ∨ reg.key = "TT2" then
    if raw = 20000 then .str "HI"
    else if raw = 65536 - 20000 then .str "LO"
    else if raw = 20001 then .str "---"
    else if raw = 20002 then .str "Neaktivní"
    else match reg.divider with
      | some d => .num (round1 ((raw : ℚ) / (d : ℚ)))
      | none => .int raw
  else if reg.key = "CAS" then
    match reg.divider with
    | some d => .num (round1 ((raw : ℚ) / (d : ℚ)))
    | none => .int raw
  else if reg.key = "SER1" then
    if raw = 255 then .str "Inicializace"
    else .int (min 100 (max 0 raw))
  else if reg.key = "SDS" then
    if raw = 255 then .str "Vypnuto"
    else .str (sdsLabel raw)
  else if reg.key = "STAT" then
    match STATUS_MAP.lookup raw with
    | some s => .str s
    | none => .str ("Neznámý (" ++ toString raw ++ ")")
  else if reg.key = "REZIM" then lookupOrRaw MODE_MAP raw
  else if reg.key = "PALIVO" then lookupOrRaw FUEL_MAP raw
  else if reg.key = "PRILOZ" then lookupOrRaw REFUEL_MAP raw
  else if reg.key = "BARVA" then lookupOrRaw COLOR_MAP raw
  else if reg.key = "BEEP" then lookupOrRaw BEEP_MAP raw
  else if reg.key = "RELE1" ∨ reg.key = "RELE2" then lookupOrRaw RELAY_MAP raw
  else if reg.key = "PORUCHA" then
    if raw = 0 then .str "Bez poruchy"
    else if faultList raw ≠ [] then .str (String.intercalate ", " (faultList raw))
    else .str ("Neznámá (" ++ toString raw ++ ")")
  else match reg.divider with
    | some d => .num (round1 ((raw : ℚ) / (d : ℚ)))
    | none => .int raw

/-- The PORUCHA descriptor of the catalog. -/
def PORUCHA_def : RegDef := ⟨0x0013, "Sensor Fault", "PORUCHA", none⟩

/-- The SDS descriptor of the catalog. -/
def SDS_def : RegDef := ⟨0x0008, "SDS Sensitivity", "SDS", none⟩

/-- The fault names the claim predicts, stated independently over the
bits of the raw value (Nat.testBit) in ascending bit order. -/
def claimedFaults (raw : Nat) : List String :=
  (if raw.testBit 0 then ["T1"] else []) ++
  (if raw.testBit 1 then ["T2"] else []) ++
  (if raw.testBit 3 then ["Dvířka"] else [])

/-- The pairs (key, lookup table) of the enumerated registers whose
unmapped fallback is the raw integer. -/
def ENUM_TABLES : List (String × List (Nat × String)) :=
  [("REZIM", MODE_MAP), ("PALIVO", FUEL_MAP), ("PRILOZ", REFUEL_MAP),
    ("BARVA", COLOR_MAP), ("BEEP", BEEP_MAP), ("RELE1", RELAY_MAP), ("RELE2", RELAY_MAP)]

/-- C2: over the catalog descriptors keyed TT and TT2 (divider 10), the
raw value 20000 decodes to "HI", 45536 (the unsigned wraparound of
-20000) to "LO", 20001 to the sensor-absent marker "---", 20002 to the
sensor-inactive marker "Neaktivní", and every other raw 16-bit value to
round(raw / 10, 1). -/
theorem C2_temperature_decode (reg : RegDef)
    (hmem : reg ∈ REGISTER_DEFINITIONS) (hkey : reg.key = "TT" ∨ reg.key = "TT2")
    (raw : Nat) (hraw : raw < 65536) :
    native_value reg raw =
      if raw = 20000 then .str "HI"
      else if raw = 45536 then .str "LO"
      else if raw = 20001 then .str "---"
      else if raw = 20002 then .str "Neaktivní"
      else .num (round1 ((raw : ℚ) / 10)) := by
  have hdiv : reg.divider = some 10 := by
    fin_cases hmem <;> first
      | rfl
      | (exfalso; revert hkey; decide)
  unfold native_value
  rw [if_pos hkey, hdiv]
  norm_num

/-- C2 witness: raw 215 on the T1 descriptor decodes to the rounded
fraction 215 / 10. -/
theorem C2_witness :
    native_value ⟨0x0000, "Temperature T1", "TT", some 10⟩ 215 =
      .num (round1 ((215 : ℚ) / 10)) := by
  have h := C2_temperature_decode ⟨0x0000, "Temperature T1", "TT", some 10⟩
    (by decide) (Or.inl rfl) 215 (by norm_num)
  simpa using h

/-- C6 counterexample: the operating-status register STAT is in the
claim's list, raw 9 is absent from STATUS_MAP, and the decode emits the
string "Neznámý (9)", not the raw numeric value 9. -/
theorem C6_counterexample :
    native_value ⟨0x0014, "Unit Status", "STAT", none⟩ 9 = .str "Neznámý (9)" ∧
    native_value ⟨0x0014, "Unit Status", "STAT", none⟩ 9 ≠ .int 9 := by
  decide

/-- C6 amended: for the enumerated registers REZIM, PALIVO, PRILOZ,
BARVA, BEEP, RELE1 and RELE2, a raw value absent from the register's
fixed table decodes to the raw numeric value unchanged; for STAT an
absent raw value decodes to the unknown-status string carrying the raw
value.  Decoding is total, so no raw value raises an error. -/
theorem C6_amended_enum_fallback (reg : RegDef)
    (hmem : reg ∈ REGISTER_DEFINITIONS) (raw : Nat) :
    (∀ key m, (key, m) ∈ ENUM_TABLES → reg.key = key → m.lookup raw = none →
      native_value reg raw = .int raw) ∧
    (reg.key = "STAT" → STATUS_MAP.lookup raw = none →
      native_value reg raw = .str ("Neznámý (" ++ toString raw ++ ")")) := by
  fin_cases hmem <;>
    exact ⟨fun key m hkm hk hl => by
        fin_cases hkm <;> first
          | exact absurd hk (by decide)
          | simp [native_value, lookupOrRaw, hl],
      fun hk hl => by
        first
          | exact absurd hk (by decide)
          | simp [native_value, hl]⟩

/-- C6 witness: REZIM at the unmapped raw 99 degrades to the integer 99,
and STAT at the unmapped raw 9 degrades to its unknown-status string. -/
theorem C6_witness :
    (⟨0x0005, "Combustion Mode", "REZIM", none⟩ : RegDef) ∈ REGISTER_DEFINITIONS ∧
    MODE_MAP.lookup 99 = none ∧
    native_value ⟨0x0005, "Combustion Mode", "REZIM", none⟩ 99 = .int 99 ∧
    STATUS_MAP.lookup 9 = none ∧
    native_value ⟨0x0014, "Unit Status", "STAT", none⟩ 9 =
      .str ("Neznámý (" ++ toString 9 ++ ")") := by
  refine ⟨by decide, by decide, ?_, by decide, ?_⟩
  · exact (C6_amended_enum_fallback ⟨0x0005, "Combustion Mode", "REZIM", none⟩
      (by decide) 99).1 "REZIM" MODE_MAP (by decide) rfl (by decide)
  · exact (C6_amended_enum_fallback ⟨0x0014, "Unit Status", "STAT", none⟩
      (by decide) 9).2 rfl (by decide)

/-- C7: fault decoding satisfies the claim — raw 0 yields the no-fault
marker; whenever any of bits 0, 1, 3 is set, the result is the active
fault names T1, T2, Dvířka comma-joined in ascending bit order; a
nonzero raw with none of those bits yields the unknown-fault string
carrying the raw value.  claimedFaults states the expected names
independently via Nat.testBit. -/
theorem C7_fault_flags (raw : Nat) :
    (raw = 0 → native_value PORUCHA_def raw = .str "Bez poruchy") ∧
    (claimedFaults raw ≠ [] →
      native_value PORUCHA_def raw = .str (String.intercalate ", " (claimedFaults raw))) ∧
    (raw ≠ 0 → claimedFaults raw = [] →
      native_value PORUCHA_def raw = .str ("Neznámá (" ++ toString raw ++ ")")) := by
  have m0 : raw &&& 1 = (raw.testBit 0).toNat := by
    simpa using Nat.and_two_pow raw 0
  have m1 : raw &&& 2 = (raw.testBit 1).toNat * 2 := by
    simpa using Nat.and_two_pow raw 1
  have m3 : raw &&& 8 = (raw.testBit 3).toNat * 8 := by
    simpa using Nat.and_two_pow raw 3
  have hfl : faultList raw = claimedFaults raw := by
    unfold faultList claimedFaults
    rw [m0, m1, m3]
    cases raw.testBit 0 <;> cases raw.testBit 1 <;> cases raw.testBit 3 <;> simp
  refine ⟨?_, ?_, ?_⟩
  · intro h
    subst h
    decide
  · intro hne
    have hraw0 : raw ≠ 0 := by
      intro h
      subst h
      exact hne (by decide)
    simp [native_value, PORUCHA_def, hfl, hraw0, hne]
  · intro hraw0 hemp
    simp [native_value, PORUCHA_def, hfl, hraw0, hemp]

/-- C7 witness: each single fault bit, the three-fault join, and the
unknown-fault fallback at raw 4 (bit 2 only). -/
theorem C7_witness :
    native_value PORUCHA_def 0 = .str "Bez poruchy" ∧
    native_value PORUCHA_def 1 = .str "T1" ∧
    native_value PORUCHA_def 2 = .str "T2" ∧
    native_value PORUCHA_def 8 = .str "Dvířka" ∧
    native_value PORUCHA_def 11 = .str "T1, T2, Dvířka" ∧
    native_value PORUCHA_def 4 = .str "Neznámá (4)" := by
  refine ⟨(C7_fault_flags 0).1 rfl, ?_, ?_, ?_, ?_, ?_⟩
  · have h := (C7_fault_flags 1).2.1 (by decide)
    rw [(by decide : String.intercalate ", " (claimedFaults 1) = "T1")] at h
    exact h
  · have h := (C7_fault_flags 2).2.1 (by decide)
    rw [(by decide : String.intercalate ", " (claimedFaults 2) = "T2")] at h
    exact h
  · have h := (C7_fault_flags 8).2.1 (by decide)
    rw [(by decide : String.intercalate ", " (claimedFaults 8) = "Dvířka")] at h
    exact h
  · have h := (C7_fault_flags 11).2.1 (by decide)
    rw [(by decide : String.intercalate ", " (claimedFaults 11) = "T1, T2, Dvířka")] at h
    exact h
  · have h := (C7_fault_flags 4).2.2 (by decide) (by decide)
    rw [(by decide : ("Neznámá (" ++ toString (4 : Nat) ++ ")") = "Neznámá (4)")] at h
    exact h

/-- C10: for every raw value other than 255 the SDS decode is a string
that ends with the active marker "(Aktivní)" exactly when raw mod 10 is
1; for every other remainder the label instead carries "(Neaktivní)",
which does not end in the active marker. -/
theorem C10_sds_active_marker (raw : Nat) (h : raw ≠ 255) :
    native_value SDS_def raw = .str (sdsLabel raw) ∧
    ((∃ p, (sdsLabel raw).data = p ++ "(Aktivní)".data) ↔ raw % 10 = 1) := by
  constructor
  · simp [native_value, SDS_def, h]
  · unfold sdsLabel
    by_cases ha : raw % 10 = 1
    · rw [if_pos ha]
      simp only [ha, iff_true]
      exact ⟨(((SDS_LEVEL_MAP.lookup (raw / 10)).getD "Neznámé") ++ " ").data, rfl⟩
    · rw [if_neg ha]
      simp only [ha, iff_false]
      rintro ⟨p, hp⟩
      rw [String.data_append] at hp
      have hlen : (((SDS_LEVEL_MAP.lookup (raw / 10)).getD "Neznámé" ++ " ").data).length + 11 =
          p.length + 9 := by
        have hc := congrArg List.length hp
        simp only [List.length_append, List.length_cons, List.length_nil] at hc
        omega
      have hpl : p.length =
          (((SDS_LEVEL_MAP.lookup (raw / 10)).getD "Neznámé" ++ " ").data).length + 2 := by
        omega
      have e1 : List.drop p.length (p ++ "(Aktivní)".data) = "(Aktivní)".data :=
        List.drop_left p _
      have e2 : List.drop p.length
          ((((SDS_LEVEL_MAP.lookup (raw / 10)).getD "Neznámé" ++ " ").data) ++
            "(Neaktivní)".data) = List.drop 2 "(Neaktivní)".data := by
        rw [hpl, ← List.drop_drop, List.drop_left]
      have hcontra : List.drop 2 "(Neaktivní)".data = "(Aktivní)".data := by
        rw [← e2, hp, e1]
      exact absurd hcontra (by decide)

/-- C10 witness: raw 31 has remainder 1 and decodes to the label with
the active marker. -/
theorem C10_witness :
    (31 : Nat) ≠ 255 ∧ native_value SDS_def 31 = .str "Standard (Aktivní)" ∧
    (31 : Nat) % 10 = 1 := by
  have h := C10_sds_active_marker 31 (by decide)
  refine ⟨by decide, ?_, by decide⟩
  rw [h.1, (by decide : sdsLabel 31 = "Standard (Aktivní)")]
